import Mathlib

/-!
Verification of the athome credential-refresh core.

This file gives a shallow embedding, in Lean 4, of the token-lifecycle code of
the athome repository and proves/refutes the specification claims about it.

Modelling conventions:
* Go `time.Time` values are modelled as `Int` epoch seconds.  The zero
  `time.Time` (January 1, year 1 UTC) corresponds to Unix second
  -62135596800, so `IsZero` becomes equality with that constant and
  `time.Unix(T, 0)` is just `T`.  `t.Add(d)` is integer addition of the
  duration in seconds and `time.Now().After(x)` is `x < now`.  The source
  samples `time.Now()` several times within one invocation (they differ by
  microseconds); the model samples the clock once per invocation and lets it
  vary arbitrarily across invocations.
* Go errors are strings; `fmt.Errorf("...: %w", err)` is string concatenation.
* The authentication transport (the indigo xrpc client, an external library)
  is a pair of possible responses, one per operation, supplied per invocation;
  the trace of transport calls actually performed is returned explicitly,
  each call tagged with whether the caller held the exclusive write lock.
* `encoding/base64` (URL alphabet, padded) and `encoding/json` are external
  standard-library collaborators; they are modelled at their interfaces:
  a base64url decoder with Go's quantum/padding rules (newlines ignored,
  non-zero trailing padding bits accepted), and a JSON parser producing a
  loosely-typed value (numbers as exact decimal fractions, a numerator with a
  power-of-ten denominator; `json.Unmarshal` into `map[string]interface{}`
  yields `float64` numbers, which agree with the exact value on every number
  the claims are about; later duplicate object keys overwrite earlier ones,
  as for a Go map).
-/

namespace AtHome

/-- Unix second of the zero `time.Time` (January 1, year 1, 00:00:00 UTC). -/
def zeroTime : Int := -62135596800

/-! ## Model of `strings.Split(token, ".")` -/

/-- Splits a character list on the dot separator, Go `strings.Split` style:
the empty input yields one empty field, and separators at the ends yield
empty fields. -/
def splitDot : List Char → List (List Char)
  | [] => [[]]
  | c :: rest =>
    if c = '.' then [] :: splitDot rest
    else
      match splitDot rest with
      | [] => [[c]]
      | g :: gs => (c :: g) :: gs

/-! ## Model of `base64.URLEncoding.DecodeString` -/

/-- Value of one character in the base64url alphabet. -/
def b64Val (c : Char) : Option Nat :=
  if 'A' ≤ c ∧ c ≤ 'Z' then some (c.toNat - 65)
  else if 'a' ≤ c ∧ c ≤ 'z' then some (c.toNat - 71)
  else if '0' ≤ c ∧ c ≤ '9' then some (c.toNat + 4)
  else if c = '-' then some 62
  else if c = '_' then some 63
  else none

/-- Decodes base64 quanta of four characters.  Padding (`=`) is accepted only
at the end of the final quantum, as in Go; the default Go decoder does not
check that unused trailing bits are zero, and neither does this model. -/
def b64DecodeQ : List Char → Option (List Nat)
  | [] => some []
  | a :: b :: c :: d :: rest =>
    match b64Val a, b64Val b with
    | some va, some vb =>
      if c = '=' then
        if d = '=' ∧ rest = [] then some [va * 4 + vb / 16] else none
      else
        match b64Val c with
        | some vc =>
          if d = '=' then
            if rest = [] then some [va * 4 + vb / 16, (vb % 16) * 16 + vc / 4] else none
          else
            match b64Val d with
            | some vd =>
              match b64DecodeQ rest with
              | some t => some ((va * 4 + vb / 16) :: ((vb % 16) * 16 + vc / 4) :: ((vc % 4) * 64 + vd) :: t)
              | none => none
            | none => none
        | none => none
    | _, _ => none
  | _ => none

/-- Model of `base64.URLEncoding.DecodeString`: Go's decoder skips carriage
returns and newlines, then decodes whole quanta. -/
def base64UrlDecode (s : List Char) : Option (List Nat) :=
  b64DecodeQ (s.filter (fun c => !(c == '\r' || c == '\n')))

/-! ## Interface model of `encoding/json.Unmarshal` into `map[string]interface{}`

JSON numbers are kept exact, as a numerator over a power-of-ten denominator,
where Go parses a `float64`; the two agree on every number whose decimal
value is exactly representable in `float64` (in particular all integers below
2^53, which covers epoch-second expiry claims, and small fractions such as
1.5).  String contents are byte lists with the standard escapes processed;
as in Go, an unpaired `\uXXXX` surrogate becomes U+FFFD. -/

/-- A loosely-typed JSON value, the model of Go's `interface{}` decoding.
A number is the exact value `n / d` with `d` a positive power of ten. -/
inductive JValue where
  | num (n : Int) (d : Nat)
  | str (bytes : List Nat)
  | bool (b : Bool)
  | null
  | arr (elems : List JValue)
  | obj (members : List (List Nat × JValue))

/-- Skips JSON whitespace bytes. -/
def skipWs : List Nat → List Nat
  | [] => []
  | b :: rest => if b = 32 ∨ b = 9 ∨ b = 10 ∨ b = 13 then skipWs rest else b :: rest

/-- Consumes an expected byte sequence. -/
def expectBytes : List Nat → List Nat → Option (List Nat)
  | [], bs => some bs
  | e :: es, b :: bs => if b = e then expectBytes es bs else none
  | _ :: _, [] => none

/-- Value of a hexadecimal digit byte. -/
def hexVal (b : Nat) : Option Nat :=
  if 48 ≤ b ∧ b ≤ 57 then some (b - 48)
  else if 65 ≤ b ∧ b ≤ 70 then some (b - 55)
  else if 97 ≤ b ∧ b ≤ 102 then some (b - 87)
  else none

/-- UTF-8 encoding of a code point. -/
def utf8Enc (cp : Nat) : List Nat :=
  if cp < 128 then [cp]
  else if cp < 2048 then [192 + cp / 64, 128 + cp % 64]
  else if cp < 65536 then [224 + cp / 4096, 128 + (cp / 64) % 64, 128 + cp % 64]
  else [240 + cp / 262144, 128 + (cp / 4096) % 64, 128 + (cp / 64) % 64, 128 + cp % 64]

/-- Prepends already-decoded bytes to a string-parse continuation. -/
def consBytes (pre : List Nat) (o : Option (List Nat × List Nat)) : Option (List Nat × List Nat) :=
  o.map (fun p => (pre ++ p.1, p.2))

/-- UTF-8 bytes of U+FFFD, the replacement character. -/
def fffd : List Nat := [239, 191, 189]

/-- Byte produced by a single-character JSON escape. -/
def escByte (e : Nat) : Option Nat :=
  if e = 34 then some 34 else if e = 92 then some 92 else if e = 47 then some 47
  else if e = 98 then some 8 else if e = 102 then some 12 else if e = 110 then some 10
  else if e = 114 then some 13 else if e = 116 then some 9 else none

/-- Parses the body of a JSON string after the opening quote, returning the
decoded content bytes and the remaining input.  The fuel argument bounds the
recursion; one byte is always consumed per step, so input length plus one is
sufficient fuel. -/
def pstr : Nat → List Nat → Option (List Nat × List Nat)
  | 0, _ => none
  | _ + 1, [] => none
  | fuel + 1, b :: rest =>
    if b = 34 then some ([], rest)
    else if b = 92 then
      match rest with
      | [] => none
      | e :: r2 =>
        if e = 117 then
          match r2 with
          | h1 :: h2 :: h3 :: h4 :: r3 =>
            match hexVal h1, hexVal h2, hexVal h3, hexVal h4 with
            | some x1, some x2, some x3, some x4 =>
              let cp := ((x1 * 16 + x2) * 16 + x3) * 16 + x4
              if 55296 ≤ cp ∧ cp ≤ 56319 then
                match r3 with
                | 92 :: 117 :: g1 :: g2 :: g3 :: g4 :: r4 =>
                  match hexVal g1, hexVal g2, hexVal g3, hexVal g4 with
                  | some y1, some y2, some y3, some y4 =>
                    let cp2 := ((y1 * 16 + y2) * 16 + y3) * 16 + y4
                    if 56320 ≤ cp2 ∧ cp2 ≤ 57343 then
                      consBytes (utf8Enc (65536 + (cp - 55296) * 1024 + (cp2 - 56320))) (pstr fuel r4)
                    else consBytes fffd (pstr fuel r3)
                  | _, _, _, _ => consBytes fffd (pstr fuel r3)
                | _ => consBytes fffd (pstr fuel r3)
              else if 56320 ≤ cp ∧ cp ≤ 57343 then consBytes fffd (pstr fuel r3)
              else consBytes (utf8Enc cp) (pstr fuel r3)
            | _, _, _, _ => none
          | _ => none
        else
          match escByte e with
          | some eb => consBytes [eb] (pstr fuel r2)
          | none => none
    else if b < 32 then none
    else consBytes [b] (pstr fuel rest)

/-- Takes the leading run of decimal digit bytes. -/
def takeDigits : List Nat → List Nat × List Nat
  | [] => ([], [])
  | b :: rest =>
    if 48 ≤ b ∧ b ≤ 57 then
      let t := takeDigits (rest)
      (b :: t.1, t.2)
    else ([], b :: rest)

/-- Numeric value of a run of decimal digit bytes. -/
def digitsToNat (ds : List Nat) : Nat := ds.foldl (fun acc b => acc * 10 + (b - 48)) 0

/-- Parses an optional exponent sign and mandatory digits. -/
def pexpPart (bs : List Nat) : Option (Int × List Nat) :=
  let sr : Int × List Nat :=
    match bs with
    | 43 :: r => (1, r)
    | 45 :: r => (-1, r)
    | _ => (1, bs)
  let t := takeDigits sr.2
  if t.1.length = 0 then none else some (sr.1 * (digitsToNat t.1 : Int), t.2)

/-- Assembles the exact decimal value, a numerator over a power-of-ten
denominator, from the parsed integer part and the rest of a JSON number
(optional fraction and exponent). -/
def afterInt (neg : Bool) (ip : Nat) (bs : List Nat) : Option ((Int × Nat) × List Nat) :=
  let fr : Option (Nat × Nat × List Nat) :=
    match bs with
    | 46 :: r =>
      let t := takeDigits r
      if t.1.length = 0 then none else some (digitsToNat t.1, t.1.length, t.2)
    | _ => some (0, 0, bs)
  match fr with
  | none => none
  | some (fv, fl, bs2) =>
    let ex : Option (Int × List Nat) :=
      match bs2 with
      | 101 :: r => pexpPart r
      | 69 :: r => pexpPart r
      | _ => some (0, bs2)
    match ex with
    | none => none
    | some (e, bs3) =>
      let mant : Int := (ip * 10 ^ fl + fv : Nat)
      let mant2 : Int := if neg then -mant else mant
      let nd : Int × Nat :=
        if 0 ≤ e then (mant2 * (10 : Int) ^ e.toNat, 10 ^ fl)
        else (mant2, 10 ^ fl * 10 ^ (-e).toNat)
      some (nd, bs3)

/-- Parses a JSON number per the RFC 8259 grammar that `encoding/json`
enforces (no leading zeros, no bare sign, mandatory digits after the decimal
point and exponent marker). -/
def pnum (bs : List Nat) : Option ((Int × Nat) × List Nat) :=
  let sr : Bool × List Nat :=
    match bs with
    | 45 :: r => (true, r)
    | _ => (false, bs)
  match sr.2 with
  | 48 :: r1 => afterInt sr.1 0 r1
  | b :: _ =>
    if 49 ≤ b ∧ b ≤ 57 then
      let t := takeDigits sr.2
      afterInt sr.1 (digitsToNat t.1) t.2
    else none
  | [] => none

/-- Parses the members of a JSON object after the opening brace, when the
object is non-empty.  The value parser is passed in to avoid mutual
recursion; the fuel bounds the number of members. -/
def pmembers (pv : List Nat → Option (JValue × List Nat)) :
    Nat → List Nat → List (List Nat × JValue) → Option (JValue × List Nat)
  | 0, _, _ => none
  | fuel + 1, bs, acc =>
    match skipWs bs with
    | 34 :: r =>
      match pstr (r.length + 1) r with
      | none => none
      | some (key, r2) =>
        match skipWs r2 with
        | 58 :: r3 =>
          match pv r3 with
          | none => none
          | some (v, r4) =>
            match skipWs r4 with
            | 44 :: r5 => pmembers pv fuel r5 (acc ++ [(key, v)])
            | 125 :: r5 => some (JValue.obj (acc ++ [(key, v)]), r5)
            | _ => none
        | _ => none
    | _ => none

/-- Parses the elements of a non-empty JSON array after the opening bracket. -/
def pitems (pv : List Nat → Option (JValue × List Nat)) :
    Nat → List Nat → List JValue → Option (JValue × List Nat)
  | 0, _, _ => none
  | fuel + 1, bs, acc =>
    match pv bs with
    | none => none
    | some (v, r) =>
      match skipWs r with
      | 44 :: r2 => pitems pv fuel r2 (acc ++ [v])
      | 93 :: r2 => some (JValue.arr (acc ++ [v]), r2)
      | _ => none

/-- Parses one JSON value, consuming leading whitespace.  Fuel decreases on
every nested value, and at least one byte is consumed before each recursive
call, so input length plus one is sufficient fuel. -/
def pjson : Nat → List Nat → Option (JValue × List Nat)
  | 0, _ => none
  | fuel + 1, bs =>
    match skipWs bs with
    | [] => none
    | b :: rest =>
      if b = 110 then (expectBytes [117, 108, 108] rest).map (fun r => (JValue.null, r))
      else if b = 116 then (expectBytes [114, 117, 101] rest).map (fun r => (JValue.bool true, r))
      else if b = 102 then (expectBytes [97, 108, 115, 101] rest).map (fun r => (JValue.bool false, r))
      else if b = 34 then (pstr (rest.length + 1) rest).map (fun p => (JValue.str p.1, p.2))
      else if b = 123 then
        match skipWs rest with
        | 125 :: r => some (JValue.obj [], r)
        | _ => pmembers (pjson fuel) fuel rest []
      else if b = 91 then
        match skipWs rest with
        | 93 :: r => some (JValue.arr [], r)
        | _ => pitems (pjson fuel) fuel rest []
      else (pnum (b :: rest)).map (fun p => (JValue.num p.1.1 p.1.2, p.2))

/-- Interface model of `json.Unmarshal(bytes, &claims)` for
`claims : map[string]interface{}`: the input must be one JSON value followed
only by whitespace.  A top-level non-object makes the claims map unusable
(for a JSON `null` Go leaves the map nil, and any other non-object is an
unmarshalling type error); either way every claim lookup afterwards fails,
which this model folds into returning `none`. -/
def jsonUnmarshalObj (bytes : List Nat) : Option (List (List Nat × JValue)) :=
  match pjson (bytes.length + 1) bytes with
  | some (v, rest) =>
    if skipWs rest = [] then
      match v with
      | JValue.obj kvs => some kvs
      | _ => none
    else none
  | none => none

/-- Looks up a claim by key; as for assignment into a Go map, a later
duplicate key overwrites an earlier one. -/
def lookupClaim (kvs : List (List Nat × JValue)) (k : List Nat) : Option JValue :=
  kvs.foldl (fun acc kv => if kv.1 = k then some kv.2 else acc) none

/-- The bytes of the conventional expiry claim key "exp". -/
def expKey : List Nat := [101, 120, 112]

/-- Go's `int64(x)` conversion of a numeric claim value `n / d`: truncation
toward zero.  Exact for every value in the int64 range (the model does not
reproduce the implementation-specific wrap-around of out-of-range
conversions, nor `float64` rounding of values beyond 2^53). -/
def goTruncToInt64 (n : Int) (d : Nat) : Int := Int.tdiv n d

/-- Pads a base64 segment with `=` to a multiple of four characters, exactly
as `extractTokenExpiry` does before decoding. -/
def padB64 (claimsPart : List Char) : List Char :=
  if claimsPart.length % 4 ≠ 0 then claimsPart ++ List.replicate (4 - claimsPart.length % 4) '='
  else claimsPart

/-- Model of `extractTokenExpiry` (part_003 lines 21-79): splits the token on
dots, requires exactly three parts, pads and base64url-decodes the middle
part, parses it as JSON claims, and converts a numeric "exp" claim with
`time.Unix(int64(exp), 0)`.  Every rejection path returns the zero time.
Since `json.Unmarshal` into `map[string]interface{}` only ever produces
`float64` numbers, the source's `int64` and `json.Number` switch cases are
unreachable and the model has a single numeric case. -/
def extractTokenExpiry (token : String) : Int :=
  match splitDot token.toList with
  | [_header, claimsPart, _sig] =>
    match base64UrlDecode (padB64 claimsPart) with
    | none => zeroTime
    | some claimsBytes =>
      match jsonUnmarshalObj claimsBytes with
      | none => zeroTime
      | some claims =>
        match lookupClaim claims expKey with
        | none => zeroTime
        | some (JValue.num n d) => goTruncToInt64 n d
        | some _ => zeroTime
  | _ => zeroTime

/-- Specification-side reading of the extraction contract: the numeric "exp"
claim of a well-formed three-part token, if any, as an exact decimal
fraction.  Written as an option pipeline over the same external-collaborator
models (split, pad, base64url, JSON), independently of the early-return
control flow of the source. -/
def expClaimNum (token : String) : Option (Int × Nat) :=
  match splitDot token.toList with
  | [_header, claimsPart, _sig] =>
    (base64UrlDecode (padB64 claimsPart)).bind fun bytes =>
      (jsonUnmarshalObj bytes).bind fun claims =>
        match lookupClaim claims expKey with
        | some (JValue.num n d) => some (n, d)
        | _ => none
  | _ => none

/-! ## TokenGuard state model (types.go, main.go) -/

/-- Session payload returned by the authentication transport (the fields of
`atproto.ServerCreateSession`/`ServerRefreshSession` outputs that the core
reads). -/
structure Session where
  AccessJwt : String
  RefreshJwt : String
deriving DecidableEq

/-- Model of `xrpc.AuthInfo`, restricted to the fields the core writes. -/
structure AuthInfo where
  AccessJwt : String
  RefreshJwt : String
deriving DecidableEq

/-- Model of `AuthConfig` (types.go lines 28-41), with `RefreshAt` as epoch
seconds. -/
structure AuthConfig where
  PDS : String
  Handle : String
  Password : String
  Token : String
  RefreshToken : String
  RefreshAt : Int
deriving DecidableEq

/-- The slice of `Server` state the refresh protocol touches: the optional
auth configuration (`srv.auth`, nil in credential-free mode) and the
outbound client's authorization field (`srv.xrpcc.Auth`, a nillable
pointer). -/
structure ServerSt where
  auth : Option AuthConfig
  xrpccAuth : Option AuthInfo
deriving DecidableEq

/-- Authentication-transport responses available to one invocation: what
`atproto.ServerCreateSession` and `atproto.ServerRefreshSession` would return
if called.  The transport is external (the indigo client library); its
responses are unconstrained unless a claim constrains them. -/
structure Transport where
  create : Except String Session
  refresh : Except String Session

/-- One observed authentication-transport call, tagged with the arguments
the source passes and with whether the caller held the exclusive write lock
(`srv.authMutex`) while the call was in flight. -/
inductive AuthCall where
  | createSession (identifier password : String) (lockHeld : Bool)
  | refreshSession (refreshJwt : String) (lockHeld : Bool)
deriving DecidableEq

/-- Rewrites the lock tag of a call, for comparing call sequences modulo
lock discipline. -/
def AuthCall.setLock (b : Bool) : AuthCall → AuthCall
  | AuthCall.createSession i p _ => AuthCall.createSession i p b
  | AuthCall.refreshSession r _ => AuthCall.refreshSession r b

/-- The `AuthConfig` built by main.go lines 183-187: credentials set, token
fields at their Go zero values. -/
def mkAuthConfig (pds handle password : String) : AuthConfig :=
  { PDS := pds, Handle := handle, Password := password,
    Token := "", RefreshToken := "", RefreshAt := zeroTime }

/-- The staleness check of `refreshAuth` (part_003 lines 112 and 132):
`srv.auth.RefreshAt.IsZero() || time.Now().After(srv.auth.RefreshAt.Add(-30*time.Minute))`. -/
def tokenExpired (now : Int) (a : AuthConfig) : Bool :=
  decide (a.RefreshAt = zeroTime) || decide (a.RefreshAt - 1800 < now)

/-- The deadline computation shared by every successful refresh in part_003
(lines 155-165, 198-207 and 234-244): thirty minutes before the extracted
expiry, or now plus twenty-three hours when the expiry cannot be
extracted. -/
def computeRefreshAt (accessJwt : String) (now : Int) : Int :=
  let expiry := extractTokenExpiry accessJwt
  if expiry = zeroTime then now + 82800 else expiry - 1800

/-! ## The refresh protocol (part_003) -/

/-- The password-authentication fallback of `refreshAuth` (part_003 lines
221-251), entered with the write lock held: `ServerCreateSession` with the
configured identifier and password; on failure a wrapped error with the
state untouched, on success all credential fields and the outbound
authorization replaced. -/
def fallbackCreate (a : AuthConfig) (xa : Option AuthInfo) (now : Int) (tr : Transport)
    (callsSoFar : List AuthCall) :
    Except String Unit × AuthConfig × Option AuthInfo × List AuthCall :=
  match tr.create with
  | Except.error e =>
    (Except.error ("failed to create new session: " ++ e), a, xa,
      callsSoFar ++ [AuthCall.createSession a.Handle a.Password true])
  | Except.ok session =>
    (Except.ok (),
      { a with Token := session.AccessJwt, RefreshToken := session.RefreshJwt,
               RefreshAt := computeRefreshAt session.AccessJwt now },
      some { AccessJwt := session.AccessJwt, RefreshJwt := "" },
      callsSoFar ++ [AuthCall.createSession a.Handle a.Password true])

/-- The write-lock section of `refreshAuth` (part_003 lines 130-251): the
double check of staleness, then first authentication when `Token` is empty
(lines 144-173), else a refresh-grant attempt when `RefreshToken` is
non-empty (lines 176-219, where the temporary swap of `xrpcc.Auth` around
the call is restored before any return and so nets to no change), falling
back to password authentication.  Returns the result, the updated
credential state, the updated outbound authorization and the transport
calls performed (all under the write lock). -/
def refreshLocked (a : AuthConfig) (xa : Option AuthInfo) (now : Int) (tr : Transport) :
    Except String Unit × AuthConfig × Option AuthInfo × List AuthCall :=
  if tokenExpired now a = false then (Except.ok (), a, xa, [])
  else if a.Token = "" then
    match tr.create with
    | Except.error e =>
      (Except.error ("failed to create session: " ++ e), a, xa,
        [AuthCall.createSession a.Handle a.Password true])
    | Except.ok session =>
      (Except.ok (),
        { a with Token := session.AccessJwt, RefreshToken := session.RefreshJwt,
                 RefreshAt := computeRefreshAt session.AccessJwt now },
        some { AccessJwt := session.AccessJwt, RefreshJwt := "" },
        [AuthCall.createSession a.Handle a.Password true])
  else if a.RefreshToken = "" then fallbackCreate a xa now tr []
  else
    match tr.refresh with
    | Except.ok refreshedSession =>
      (Except.ok (),
        { a with Token := refreshedSession.AccessJwt,
                 RefreshToken := refreshedSession.RefreshJwt,
                 RefreshAt := computeRefreshAt refreshedSession.AccessJwt now },
        some { AccessJwt := refreshedSession.AccessJwt, RefreshJwt := "" },
        [AuthCall.refreshSession a.RefreshToken true])
    | Except.error _ =>
      fallbackCreate a xa now tr [AuthCall.refreshSession a.RefreshToken true]

/-- Outcome of one `refreshAuth` invocation: the returned error value, the
server state afterwards, the transport calls made, and whether the
exclusive write lock was acquired. -/
structure RefreshResult where
  result : Except String Unit
  state : ServerSt
  calls : List AuthCall
  wlock : Bool

/-- Model of `refreshAuth` (part_003 lines 102-252): the no-configuration
guard, the read-locked staleness check with its lock-free success return,
and otherwise the write-locked refresh section. -/
def refreshAuth (st : ServerSt) (now : Int) (tr : Transport) : RefreshResult :=
  match st.auth with
  | none =>
    { result := Except.error "no auth configuration", state := st, calls := [], wlock := false }
  | some a =>
    if tokenExpired now a = false then
      { result := Except.ok (), state := st, calls := [], wlock := false }
    else
      match refreshLocked a st.xrpccAuth now tr with
      | (res, a2, xa2, cs) =>
        { result := res, state := { auth := some a2, xrpccAuth := xa2 }, calls := cs,
          wlock := true }

/-- Model of `ensureValidToken` (part_003 lines 83-88), which simply
delegates to `refreshAuth`. -/
def ensureValidToken (st : ServerSt) (now : Int) (tr : Transport) : RefreshResult :=
  refreshAuth st now tr

/-- Sequential composition of repeated `refreshAuth` calls at the given
clock readings against a fixed transport, accumulating the transport calls
performed. -/
def runEnsure (tr : Transport) : ServerSt → List Int → ServerSt × List AuthCall
  | st, [] => (st, [])
  | st, t :: rest =>
    match refreshAuth st t tr with
    | r =>
      match runEnsure tr r.state rest with
      | u => (u.1, r.calls ++ u.2)

/-! ## The dedicated background refresher (part_003 lines 257-362) -/

/-- The staleness check of `startBackgroundTokenRefresh` (part_003 line
273), a separate code site from the one in `refreshAuth`. -/
def bgTokenExpired (now : Int) (a : AuthConfig) : Bool :=
  decide (a.RefreshAt = zeroTime) || decide (a.RefreshAt - 1800 < now)

/-- The state update at the end of a background tick (part_003 lines
336-353), performed under the write lock. -/
def bgApply (a : AuthConfig) (now : Int) (s : Session) (calls : List AuthCall) :
    AuthConfig × Option AuthInfo × List AuthCall :=
  ({ a with Token := s.AccessJwt, RefreshToken := s.RefreshJwt,
            RefreshAt := computeRefreshAt s.AccessJwt now },
    some { AccessJwt := s.AccessJwt, RefreshJwt := "" }, calls)

/-- One tick of `startBackgroundTokenRefresh` (part_003 lines 267-359): a
read-locked staleness check, then a refresh-grant attempt when a refresh
token is present, then password authentication if that did not succeed —
both transport calls made with no lock held — and finally, unless the
password call failed (in which case the tick gives up with no change), the
write-locked state update. -/
def bgTick (a : AuthConfig) (xa : Option AuthInfo) (now : Int) (tr : Transport) :
    AuthConfig × Option AuthInfo × List AuthCall :=
  if bgTokenExpired now a = false then (a, xa, [])
  else if a.RefreshToken = "" then
    match tr.create with
    | Except.error _ => (a, xa, [AuthCall.createSession a.Handle a.Password false])
    | Except.ok s => bgApply a now s [AuthCall.createSession a.Handle a.Password false]
  else
    match tr.refresh with
    | Except.ok s => bgApply a now s [AuthCall.refreshSession a.RefreshToken false]
    | Except.error _ =>
      match tr.create with
      | Except.error _ =>
        (a, xa,
          [AuthCall.refreshSession a.RefreshToken false,
           AuthCall.createSession a.Handle a.Password false])
      | Except.ok s =>
        bgApply a now s
          [AuthCall.refreshSession a.RefreshToken false,
           AuthCall.createSession a.Handle a.Password false]

/-! ## The background refresher actually started by setupServer
(service.go lines 122-159) -/

/-- The staleness check of the setupServer background goroutine (service.go
line 134), which uses a ten-minute margin where `refreshAuth` uses thirty. -/
def serviceNeedsRefresh (now : Int) (a : AuthConfig) : Bool :=
  decide (a.RefreshAt = zeroTime) || decide (a.RefreshAt - 600 < now)

/-- One tick of the background goroutine started by setupServer (service.go
lines 131-156): on staleness it goes straight to `ServerCreateSession`
(no lock held during the call, no refresh-grant attempt), and on success
updates `Token`, sets `RefreshAt` to now plus twenty-three hours
unconditionally (no expiry extraction) and replaces the outbound
authorization, leaving `RefreshToken` untouched. -/
def serviceTick (a : AuthConfig) (xa : Option AuthInfo) (now : Int) (tr : Transport) :
    AuthConfig × Option AuthInfo × List AuthCall :=
  if serviceNeedsRefresh now a = false then (a, xa, [])
  else
    match tr.create with
    | Except.error _ => (a, xa, [AuthCall.createSession a.Handle a.Password false])
    | Except.ok session =>
      ({ a with Token := session.AccessJwt, RefreshAt := now + 82800 },
        some { AccessJwt := session.AccessJwt, RefreshJwt := "" },
        [AuthCall.createSession a.Handle a.Password false])

/-! ## Serialized contention episodes

The credential state is guarded by a single `sync.RWMutex`; the write-lock
sections of concurrent `refreshAuth` callers therefore execute in some
serial order.  A staleness episode is modelled as that serial order: the
callers that passed the read-locked check each execute the write-lock
section (`refreshLocked`, which begins with the double check) in turn, each
at its own clock reading and with its own transport responses. -/

/-- One write-lock entrant of a contention episode. -/
structure SlowEntry where
  now : Int
  tr : Transport

/-- Cumulative outcome of a serialized episode. -/
structure EpisodeOut where
  authC : AuthConfig
  xa : Option AuthInfo
  calls : List AuthCall
  results : List (Except String Unit)

/-- Runs the write-lock sections of a staleness episode in their serial
order. -/
def runSlowPaths : AuthConfig → Option AuthInfo → List SlowEntry → EpisodeOut
  | a, xa, [] => { authC := a, xa := xa, calls := [], results := [] }
  | a, xa, e :: rest =>
    match refreshLocked a xa e.now e.tr with
    | (res, a2, xa2, cs) =>
      match runSlowPaths a2 xa2 rest with
      | t => { authC := t.authC, xa := t.xa, calls := cs ++ t.calls, results := res :: t.results }

/-- Freshness of one transport response relative to a whole episode: if the
response is a session, the deadline its access token induces is non-zero
and leaves every entrant of the episode at least thirty minutes short of
it.  Error responses are trivially fresh. -/
def freshRespB (entries : List SlowEntry) (now : Int) : Except String Session → Bool
  | Except.ok s =>
    decide (computeRefreshAt s.AccessJwt now ≠ zeroTime) &&
      entries.all (fun e2 => decide (e2.now ≤ computeRefreshAt s.AccessJwt now - 1800))
  | Except.error _ => true

/-! ## Handle allow-list (handlers.go lines 33-43, main.go lines 90-100) -/

/-- Model of `Server.validateHandle` (handlers.go): with an empty allow list
every handle passes; otherwise the list is scanned for a string-equal
element and a descriptive error is returned when none matches. -/
def validateHandle (validHandles : List String) (handle : String) : Except String Unit :=
  if validHandles.length = 0 then Except.ok ()
  else if validHandles.any (fun h => h == handle) then Except.ok ()
  else Except.error ("handle " ++ handle ++ " is not in the allowed list")

/-- Model of `isValidHandle` (main.go): the same scan returning a boolean. -/
def isValidHandle (handle : String) (validHandles : List String) : Bool :=
  if validHandles.length = 0 then true
  else validHandles.any (fun h => h == handle)

/-! ## Helper lemmas -/

/-- A deadline that is non-zero and at least thirty minutes away is not
stale. -/
theorem tokenExpired_eq_false (now : Int) (a : AuthConfig)
    (hz : a.RefreshAt ≠ zeroTime) (hm : now ≤ a.RefreshAt - 1800) :
    tokenExpired now a = false := by
  unfold tokenExpired
  rw [Bool.or_eq_false_iff]
  exact ⟨by simp [hz], by simp; omega⟩

/-- When the deadline is not stale, the write-lock section is a no-op. -/
theorem refreshLocked_not_stale (a : AuthConfig) (xa : Option AuthInfo) (now : Int)
    (tr : Transport) (h : tokenExpired now a = false) :
    refreshLocked a xa now tr = (Except.ok (), a, xa, []) := by
  unfold refreshLocked
  simp [h]

/-- An erroring write-lock section leaves the credential state and the
outbound authorization untouched. -/
theorem refreshLocked_error_frame (a : AuthConfig) (xa : Option AuthInfo) (now : Int)
    (tr : Transport) (e : String) (h : (refreshLocked a xa now tr).1 = Except.error e) :
    (refreshLocked a xa now tr).2.1 = a ∧ (refreshLocked a xa now tr).2.2.1 = xa := by
  unfold refreshLocked fallbackCreate at h ⊢
  by_cases h1 : tokenExpired now a = false <;>
    by_cases h2 : a.Token = "" <;>
      by_cases h3 : a.RefreshToken = "" <;>
        cases hc : tr.create <;>
          cases hr : tr.refresh <;>
            simp_all

/-! ## Claim C9: the no-configuration guard -/

/-- C9: whenever `refreshAuth` runs with `srv.auth` nil, it returns the
"no auth configuration" error immediately, performs no transport call,
acquires no lock and changes no state — on every such call. -/
theorem refreshAuth_no_auth_config (st : ServerSt) (now : Int) (tr : Transport)
    (h : st.auth = none) :
    refreshAuth st now tr =
      { result := Except.error "no auth configuration", state := st, calls := [],
        wlock := false } := by
  unfold refreshAuth
  rw [h]

/-- Witness for C9 at a concrete credential-free server and transport. -/
theorem refreshAuth_no_auth_config_witness :
    (({ auth := none, xrpccAuth := none } : ServerSt).auth = none) ∧
    refreshAuth { auth := none, xrpccAuth := none } 0
        { create := Except.error "e", refresh := Except.error "e" } =
      { result := Except.error "no auth configuration",
        state := { auth := none, xrpccAuth := none }, calls := [], wlock := false } :=
  ⟨rfl,
    refreshAuth_no_auth_config { auth := none, xrpccAuth := none } 0
      { create := Except.error "e", refresh := Except.error "e" } rfl⟩

/-! ## Claim C10: the handle allow list -/

/-- C10: with an empty allow list both `validateHandle` and `isValidHandle`
accept every handle; with a non-empty list they accept exactly the handles
string-equal to some element, erring on all others. -/
theorem handle_allow_list (handle : String) (vh : List String) :
    (vh = [] → validateHandle vh handle = Except.ok () ∧ isValidHandle handle vh = true) ∧
    (vh ≠ [] →
      (validateHandle vh handle = Except.ok () ↔ handle ∈ vh) ∧
      (isValidHandle handle vh = true ↔ handle ∈ vh)) := by
  have hany : (vh.any (fun h => h == handle) = true) ↔ handle ∈ vh := by
    simp [List.any_eq_true]
  constructor
  · intro hv
    subst hv
    exact ⟨rfl, rfl⟩
  · intro hv
    have hlen : ¬vh.length = 0 := by
      simpa [List.length_eq_zero] using hv
    cases ha : vh.any (fun h => h == handle) with
    | true =>
      have hm : handle ∈ vh := hany.mp ha
      simp [validateHandle, isValidHandle, hlen, ha, hm]
    | false =>
      have hm : handle ∉ vh := fun hmem => by
        rw [hany.mpr hmem] at ha
        exact absurd ha (by decide)
      simp [validateHandle, isValidHandle, hlen, ha, hm]

/-- Witness for C10 on a concrete non-empty allow list. -/
theorem handle_allow_list_witness :
    (["alice.bsky.social"] : List String) ≠ [] ∧
    validateHandle ["alice.bsky.social"] "alice.bsky.social" = Except.ok () :=
  ⟨by decide,
    ((handle_allow_list "alice.bsky.social" ["alice.bsky.social"]).2 (by decide)).1.mpr
      (by decide)⟩

/-! ## Claim C5: failures leave the state untouched -/

/-- C5: whenever `refreshAuth` returns an error, the whole credential state
(`Token`, `RefreshToken`, `RefreshAt`) and the outbound client's
authorization field are exactly as before the call. -/
theorem refreshAuth_error_state_unchanged (st : ServerSt) (now : Int) (tr : Transport)
    (e : String) (h : (refreshAuth st now tr).result = Except.error e) :
    (refreshAuth st now tr).state = st := by
  unfold refreshAuth at h ⊢
  cases hs : st.auth with
  | none => simp
  | some a =>
    by_cases ht : tokenExpired now a = false
    · simp [ht]
    · rw [Bool.not_eq_false] at ht
      rw [hs] at h
      have hframe := refreshLocked_error_frame a st.xrpccAuth now tr e
      rcases hr : refreshLocked a st.xrpccAuth now tr with ⟨res, a2, xa2, cs⟩
      rw [hr] at hframe
      simp only at hframe
      simp only [ht, hr] at h ⊢
      simp at h ⊢
      obtain ⟨h1, h2⟩ := hframe h
      subst h1
      subst h2
      rw [← hs]

/-- Witness for C5: a concrete call whose password fallback fails. -/
theorem refreshAuth_error_state_unchanged_witness :
    (refreshAuth { auth := some (mkAuthConfig "p" "h" "w"), xrpccAuth := none } 0
        { create := Except.error "boom", refresh := Except.error "boom" }).result =
      Except.error "failed to create session: boom" ∧
    (refreshAuth { auth := some (mkAuthConfig "p" "h" "w"), xrpccAuth := none } 0
        { create := Except.error "boom", refresh := Except.error "boom" }).state =
      { auth := some (mkAuthConfig "p" "h" "w"), xrpccAuth := none } :=
  ⟨rfl,
    refreshAuth_error_state_unchanged
      { auth := some (mkAuthConfig "p" "h" "w"), xrpccAuth := none } 0
      { create := Except.error "boom", refresh := Except.error "boom" }
      "failed to create session: boom" rfl⟩

/-! ## Claim C2: the refresh-then-password fallback chain -/

/-- C2: from a stale state with non-empty access and refresh tokens, a
failing refresh-grant call followed by a succeeding password call yields
success, the state holds exactly the session returned by the password call,
and exactly one refresh attempt and one create attempt were made, in that
order. -/
theorem refreshAuth_fallback_chain (st : ServerSt) (a : AuthConfig) (now : Int)
    (tr : Transport) (s : Session) (e : String)
    (ha : st.auth = some a) (htok : a.Token ≠ "") (hrt : a.RefreshToken ≠ "")
    (hstale : tokenExpired now a = true)
    (hre : tr.refresh = Except.error e) (hcr : tr.create = Except.ok s) :
    refreshAuth st now tr =
      { result := Except.ok (),
        state :=
          { auth := some { a with
                            Token := s.AccessJwt, RefreshToken := s.RefreshJwt,
                            RefreshAt := computeRefreshAt s.AccessJwt now },
            xrpccAuth := some { AccessJwt := s.AccessJwt, RefreshJwt := "" } },
        calls := [AuthCall.refreshSession a.RefreshToken true,
                  AuthCall.createSession a.Handle a.Password true],
        wlock := true } := by
  unfold refreshAuth refreshLocked fallbackCreate
  rw [ha, hre, hcr]
  simp [hstale, htok, hrt]

/-- Witness for C2 on concrete state and transport. -/
theorem refreshAuth_fallback_chain_witness :
    tokenExpired 0 { mkAuthConfig "p" "h" "w" with Token := "t", RefreshToken := "r" } = true ∧
    refreshAuth
        { auth := some { mkAuthConfig "p" "h" "w" with Token := "t", RefreshToken := "r" },
          xrpccAuth := none } 0
        { create := Except.ok { AccessJwt := "A", RefreshJwt := "R" },
          refresh := Except.error "bad" } =
      { result := Except.ok (),
        state :=
          { auth := some { mkAuthConfig "p" "h" "w" with
                            Token := "A", RefreshToken := "R",
                            RefreshAt := computeRefreshAt "A" 0 },
            xrpccAuth := some { AccessJwt := "A", RefreshJwt := "" } },
        calls := [AuthCall.refreshSession "r" true, AuthCall.createSession "h" "w" true],
        wlock := true } :=
  ⟨by decide,
    refreshAuth_fallback_chain
      { auth := some { mkAuthConfig "p" "h" "w" with Token := "t", RefreshToken := "r" },
        xrpccAuth := none }
      { mkAuthConfig "p" "h" "w" with Token := "t", RefreshToken := "r" } 0
      { create := Except.ok { AccessJwt := "A", RefreshJwt := "R" },
        refresh := Except.error "bad" }
      { AccessJwt := "A", RefreshJwt := "R" } "bad" rfl (by decide) (by decide) (by decide)
      rfl rfl⟩

/-! ## Claim C1: the read-locked fast path

The claim asserts the fast path for every non-zero `RefreshAt` strictly in
the future.  The source checks `time.Now().After(RefreshAt.Add(-30*time.Minute))`,
so a deadline less than thirty minutes away is already treated as stale:
the claim fails there, and holds exactly from thirty minutes out. -/

/-- Fast-path equality used for both parts of the amended C1. -/
theorem refreshAuth_fast_path_eq (st : ServerSt) (a : AuthConfig) (now : Int)
    (tr : Transport) (ha : st.auth = some a) (hz : a.RefreshAt ≠ zeroTime)
    (hm : now ≤ a.RefreshAt - 1800) :
    refreshAuth st now tr =
      { result := Except.ok (), state := st, calls := [], wlock := false } := by
  unfold refreshAuth
  rw [ha]
  simp [tokenExpired_eq_false now a hz hm]

/-- C1 (amended): when `RefreshAt` is non-zero and at least thirty minutes
in the future, `refreshAuth` (and hence `ensureValidToken`) returns success
with no transport call, no write lock and no state change; consequently any
sequence of repeated calls whose clock readings all stay at least thirty
minutes before the deadline performs zero transport calls. -/
theorem refreshAuth_fast_path_margin (st : ServerSt) (a : AuthConfig) (now : Int)
    (tr : Transport) (ha : st.auth = some a) (hz : a.RefreshAt ≠ zeroTime)
    (hm : now ≤ a.RefreshAt - 1800) :
    refreshAuth st now tr =
      { result := Except.ok (), state := st, calls := [], wlock := false } ∧
    (∀ nows : List Int, (∀ t ∈ nows, t ≤ a.RefreshAt - 1800) →
      runEnsure tr st nows = (st, [])) ∧
    ensureValidToken st now tr = refreshAuth st now tr := by
  refine ⟨refreshAuth_fast_path_eq st a now tr ha hz hm, ?_, rfl⟩
  intro nows hnows
  induction nows with
  | nil => rfl
  | cons t rest ih =>
    have h1 := refreshAuth_fast_path_eq st a t tr ha hz (hnows t (List.mem_cons_self t rest))
    have h2 := ih (fun u hu => hnows u (List.mem_cons_of_mem t hu))
    unfold runEnsure
    rw [h1]
    simp only
    rw [h2]
    rfl

/-- Counterexample to C1 as stated: a non-zero deadline one second in the
future is treated as stale — the call takes the write lock and performs a
transport call. -/
theorem refreshAuth_future_deadline_not_fast :
    ((100 : Int) ≠ zeroTime ∧ (99 : Int) < 100) ∧
    (refreshAuth { auth := some { mkAuthConfig "p" "h" "w" with RefreshAt := 100 },
                   xrpccAuth := none } 99
        { create := Except.ok { AccessJwt := "A", RefreshJwt := "R" },
          refresh := Except.error "x" }).wlock = true ∧
    (refreshAuth { auth := some { mkAuthConfig "p" "h" "w" with RefreshAt := 100 },
                   xrpccAuth := none } 99
        { create := Except.ok { AccessJwt := "A", RefreshJwt := "R" },
          refresh := Except.error "x" }).calls =
      [AuthCall.createSession "h" "w" true] :=
  ⟨⟨by decide, by decide⟩, by decide, by decide⟩

/-- Witness for the amended C1 at a concrete state and clock. -/
theorem refreshAuth_fast_path_margin_witness :
    ({ auth := some { mkAuthConfig "p" "h" "w" with RefreshAt := 10000 },
       xrpccAuth := none } : ServerSt).auth =
        some { mkAuthConfig "p" "h" "w" with RefreshAt := 10000 } ∧
    (10000 : Int) ≠ zeroTime ∧ (0 : Int) ≤ 10000 - 1800 ∧
    refreshAuth { auth := some { mkAuthConfig "p" "h" "w" with RefreshAt := 10000 },
                  xrpccAuth := none } 0
      { create := Except.error "e", refresh := Except.error "e" } =
      { result := Except.ok (),
        state := { auth := some { mkAuthConfig "p" "h" "w" with RefreshAt := 10000 },
                   xrpccAuth := none },
        calls := [], wlock := false } :=
  ⟨rfl, by decide, by decide,
    (refreshAuth_fast_path_margin
      { auth := some { mkAuthConfig "p" "h" "w" with RefreshAt := 10000 }, xrpccAuth := none }
      { mkAuthConfig "p" "h" "w" with RefreshAt := 10000 } 0
      { create := Except.error "e", refresh := Except.error "e" }
      rfl (by decide) (by decide)).1⟩

/-! ## Claim C6: non-empty token after success

The code copies whatever access token the transport returns, and the fast
path trusts the stored deadline, so with a transport that returns an empty
access token a successful call can leave (or find) an empty token.  The
claim holds under the added assumptions that transport sessions carry
non-empty access tokens and that the starting state satisfies the invariant
relating a set deadline to a non-empty token. -/

/-- Counterexample to C6 as stated: with a transport whose successful
session carries an empty access token, the first authentication succeeds
and leaves `Token` empty. -/
theorem refreshAuth_success_can_leave_empty_token :
    (refreshAuth { auth := some (mkAuthConfig "p" "h" "w"), xrpccAuth := none } 0
        { create := Except.ok { AccessJwt := "", RefreshJwt := "" },
          refresh := Except.error "x" }).result = Except.ok () ∧
    (match (refreshAuth { auth := some (mkAuthConfig "p" "h" "w"), xrpccAuth := none } 0
        { create := Except.ok { AccessJwt := "", RefreshJwt := "" },
          refresh := Except.error "x" }).state.auth with
      | some a2 => a2.Token
      | none => "missing") = "" :=
  ⟨rfl, rfl⟩

/-- C6 (amended): provided every successful transport session carries a
non-empty access token, and the starting state satisfies the invariant that
a set (non-zero) deadline implies a non-empty stored token, a successful
`refreshAuth` leaves a non-empty `Token`; the invariant itself is preserved
by every call (it holds of the startup state, whose deadline is zero). -/
theorem refreshAuth_success_token_nonempty (st : ServerSt) (a : AuthConfig) (now : Int)
    (tr : Transport) (ha : st.auth = some a)
    (hinv : a.RefreshAt = zeroTime ∨ a.Token ≠ "")
    (hc : ∀ s, tr.create = Except.ok s → s.AccessJwt ≠ "")
    (hr : ∀ s, tr.refresh = Except.ok s → s.AccessJwt ≠ "") :
    ((refreshAuth st now tr).result = Except.ok () →
      ∃ a2, (refreshAuth st now tr).state.auth = some a2 ∧ a2.Token ≠ "") ∧
    (∃ a2, (refreshAuth st now tr).state.auth = some a2 ∧
      (a2.RefreshAt = zeroTime ∨ a2.Token ≠ "")) := by
  unfold refreshAuth
  rw [ha]
  by_cases ht : tokenExpired now a = false
  · have htok : a.Token ≠ "" := by
      rcases hinv with hz | htk
      · exfalso
        unfold tokenExpired at ht
        rw [hz] at ht
        simp at ht
      · exact htk
    simp only [ht, if_true]
    exact ⟨fun _ => ⟨a, by rw [ha], htok⟩, ⟨a, by rw [ha], Or.inr htok⟩⟩
  · rw [Bool.not_eq_false] at ht
    simp only [ht]
    unfold refreshLocked fallbackCreate
    simp only [ht]
    by_cases h2 : a.Token = "" <;>
      by_cases h3 : a.RefreshToken = "" <;>
        cases hcr : tr.create with
        | error ec =>
          cases hrr : tr.refresh with
          | error er => simp_all
          | ok sr =>
            have hsr := hr sr hrr
            simp_all
        | ok sc =>
          have hsc := hc sc hcr
          cases hrr : tr.refresh with
          | error er => simp_all
          | ok sr =>
            have hsr := hr sr hrr
            simp_all

/-- Witness for the amended C6 at a concrete transport with non-empty
session tokens. -/
theorem refreshAuth_success_token_nonempty_witness :
    ((refreshAuth { auth := some (mkAuthConfig "p" "h" "w"), xrpccAuth := none } 0
        { create := Except.ok { AccessJwt := "A", RefreshJwt := "R" },
          refresh := Except.error "x" }).result = Except.ok () →
      ∃ a2, (refreshAuth { auth := some (mkAuthConfig "p" "h" "w"), xrpccAuth := none } 0
          { create := Except.ok { AccessJwt := "A", RefreshJwt := "R" },
            refresh := Except.error "x" }).state.auth = some a2 ∧ a2.Token ≠ "") ∧
    (∃ a2, (refreshAuth { auth := some (mkAuthConfig "p" "h" "w"), xrpccAuth := none } 0
        { create := Except.ok { AccessJwt := "A", RefreshJwt := "R" },
          refresh := Except.error "x" }).state.auth = some a2 ∧
      (a2.RefreshAt = zeroTime ∨ a2.Token ≠ "")) :=
  refreshAuth_success_token_nonempty
    { auth := some (mkAuthConfig "p" "h" "w"), xrpccAuth := none }
    (mkAuthConfig "p" "h" "w") 0
    { create := Except.ok { AccessJwt := "A", RefreshJwt := "R" },
      refresh := Except.error "x" }
    rfl (Or.inl rfl)
    (fun s hs => by
      have hs2 : Except.ok ({ AccessJwt := "A", RefreshJwt := "R" } : Session) =
          Except.ok s := hs
      injection hs2 with h2
      rw [← h2]
      decide)
    (fun s hs => by
      have hs2 : Except.error "x" = Except.ok s := hs
      exact Except.noConfusion hs2)

/-! ## Claim C4: how the refresh deadline is derived

Every successful refresh in part_003 (the three `refreshAuth` paths and the
dedicated background tick) derives `RefreshAt` as the claim states.  The
background refresher that setupServer actually starts (service.go lines
148-153, cited by the claim) does not: it sets `RefreshAt` to now plus
twenty-three hours unconditionally, never consulting the token's expiry. -/

/-- C4 (amended): `refreshAuth` and the dedicated background tick only ever
leave `RefreshAt` unchanged or set it to `computeRefreshAt` of the newly
stored token, which equals the extracted expiry minus thirty minutes when
extraction succeeds (and is then strictly before the expiry) and now plus
twenty-three hours otherwise; the background goroutine started by
setupServer instead sets now plus twenty-three hours on every successful
refresh, regardless of the token's extractable expiry. -/
theorem refresh_deadline_policy :
    (∀ (jwt : String) (now : Int), extractTokenExpiry jwt ≠ zeroTime →
      computeRefreshAt jwt now = extractTokenExpiry jwt - 1800 ∧
      computeRefreshAt jwt now < extractTokenExpiry jwt) ∧
    (∀ (jwt : String) (now : Int), extractTokenExpiry jwt = zeroTime →
      computeRefreshAt jwt now = now + 82800) ∧
    (∀ (a : AuthConfig) (xa : Option AuthInfo) (now : Int) (tr : Transport),
      (refreshLocked a xa now tr).2.1.RefreshAt = a.RefreshAt ∨
      (refreshLocked a xa now tr).2.1.RefreshAt =
        computeRefreshAt (refreshLocked a xa now tr).2.1.Token now) ∧
    (∀ (a : AuthConfig) (xa : Option AuthInfo) (now : Int) (tr : Transport),
      (bgTick a xa now tr).1.RefreshAt = a.RefreshAt ∨
      (bgTick a xa now tr).1.RefreshAt =
        computeRefreshAt (bgTick a xa now tr).1.Token now) ∧
    (∀ (a : AuthConfig) (xa : Option AuthInfo) (now : Int) (tr : Transport) (s : Session),
      tr.create = Except.ok s → serviceNeedsRefresh now a = true →
      (serviceTick a xa now tr).1.RefreshAt = now + 82800) := by
  refine ⟨?_, ?_, ?_, ?_, ?_⟩
  · intro jwt now h
    constructor
    · simp [computeRefreshAt, h]
    · simp only [computeRefreshAt, h, if_false, if_neg h]
      omega
  · intro jwt now h
    unfold computeRefreshAt
    simp [h]
  · intro a xa now tr
    unfold refreshLocked fallbackCreate
    by_cases h1 : tokenExpired now a = false <;>
      by_cases h2 : a.Token = "" <;>
        by_cases h3 : a.RefreshToken = "" <;>
          cases hc : tr.create <;>
            cases hr : tr.refresh <;>
              simp_all
  · intro a xa now tr
    unfold bgTick bgApply
    by_cases h1 : bgTokenExpired now a = false <;>
      by_cases h3 : a.RefreshToken = "" <;>
        cases hc : tr.create <;>
          cases hr : tr.refresh <;>
            simp_all
  · intro a xa now tr s hc hn
    unfold serviceTick
    simp [hn, hc]

/-- Counterexample to C4 as stated: the background refresher started by
setupServer performs a successful refresh with a token whose expiry is
extractable and non-zero, yet sets `RefreshAt` to now plus twenty-three
hours rather than the expiry minus thirty minutes. -/
theorem service_refresher_ignores_expiry :
    extractTokenExpiry "h.eyJleHAiOjIwMDAwMDAwMDB9.s" = 2000000000 ∧
    (2000000000 : Int) ≠ zeroTime ∧
    (serviceTick (mkAuthConfig "p" "h" "w") none 0
        { create := Except.ok { AccessJwt := "h.eyJleHAiOjIwMDAwMDAwMDB9.s", RefreshJwt := "R" },
          refresh := Except.error "x" }).1.RefreshAt = 82800 ∧
    (82800 : Int) ≠ 2000000000 - 1800 :=
  ⟨by decide, by decide, by decide, by decide⟩

/-- Witness for the amended C4: the extraction branch at a concrete token
with an embedded expiry, and the setupServer branch at a concrete tick. -/
theorem refresh_deadline_policy_witness :
    computeRefreshAt "h.eyJleHAiOjE3MDAwMDAwMDB9.s" 0 = extractTokenExpiry "h.eyJleHAiOjE3MDAwMDAwMDB9.s" - 1800 ∧
    (serviceTick (mkAuthConfig "p" "h" "w") none 5
        { create := Except.ok { AccessJwt := "A", RefreshJwt := "R" },
          refresh := Except.error "x" }).1.RefreshAt = 5 + 82800 :=
  ⟨(refresh_deadline_policy.1 "h.eyJleHAiOjE3MDAwMDAwMDB9.s" 0 (by decide)).1,
    refresh_deadline_policy.2.2.2.2 (mkAuthConfig "p" "h" "w") none 5
      { create := Except.ok { AccessJwt := "A", RefreshJwt := "R" },
        refresh := Except.error "x" }
      { AccessJwt := "A", RefreshJwt := "R" } rfl (by decide)⟩

/-! ## Claim C7: the background refresher versus the slow path

Two background refreshers exist.  The dedicated `startBackgroundTokenRefresh`
(part_003) is never called; it shares `refreshAuth`'s staleness predicate
and, except when the access token is empty while a refresh token is present,
its per-tick state transition and transport calls coincide with the
write-lock section of `refreshAuth` — but its transport calls are made
without holding the write lock.  The goroutine setupServer actually starts
(service.go) uses a ten-minute margin instead of thirty and performs only
the password call. -/

/-- C7 (amended): the dedicated background tick uses the identical staleness
predicate, and whenever the access token is non-empty or the refresh token
is empty its state transition and call sequence equal those of
`refreshAuth`'s write-lock section, up to the lock tag on the calls (the
tick calls the transport with no lock held). -/
theorem bg_refresher_vs_slow_path :
    (∀ (now : Int) (a : AuthConfig), bgTokenExpired now a = tokenExpired now a) ∧
    (∀ (a : AuthConfig) (xa : Option AuthInfo) (now : Int) (tr : Transport),
      a.Token ≠ "" ∨ a.RefreshToken = "" →
      bgTick a xa now tr =
        ((refreshLocked a xa now tr).2.1, (refreshLocked a xa now tr).2.2.1,
          (refreshLocked a xa now tr).2.2.2.map (AuthCall.setLock false))) := by
  constructor
  · intro now a
    rfl
  · intro a xa now tr h
    have hbt : bgTokenExpired now a = tokenExpired now a := rfl
    unfold bgTick refreshLocked fallbackCreate bgApply
    rw [hbt]
    by_cases ht : tokenExpired now a = false
    · simp [ht]
    · rw [Bool.not_eq_false] at ht
      rcases h with htok | hrt
      · by_cases h3 : a.RefreshToken = "" <;>
          cases hcr : tr.create <;>
            cases hrr : tr.refresh <;>
              simp_all [AuthCall.setLock]
      · by_cases h2 : a.Token = "" <;>
          cases hcr : tr.create <;>
            cases hrr : tr.refresh <;>
              simp_all [AuthCall.setLock]

/-- Counterexample to C7 as stated: the background refresher that
setupServer starts uses a different staleness check from `refreshAuth`
(ten-minute versus thirty-minute margin); and even the dedicated (never
started) background tick deviates from the slow path when the access token
is empty but a refresh token is present — it attempts the refresh grant,
where `refreshAuth` would authenticate with the password — and makes its
calls without the write lock. -/
theorem background_refresher_differs :
    (tokenExpired 999100
        { mkAuthConfig "p" "h" "w" with Token := "t", RefreshToken := "r", RefreshAt := 1000000 } = true ∧
     serviceNeedsRefresh 999100
        { mkAuthConfig "p" "h" "w" with Token := "t", RefreshToken := "r", RefreshAt := 1000000 } = false) ∧
    ((bgTick { mkAuthConfig "p" "h" "w" with RefreshToken := "r" } none 0
        { create := Except.ok { AccessJwt := "A2", RefreshJwt := "R2" },
          refresh := Except.ok { AccessJwt := "A1", RefreshJwt := "R1" } }).2.2 =
      [AuthCall.refreshSession "r" false] ∧
     (refreshLocked { mkAuthConfig "p" "h" "w" with RefreshToken := "r" } none 0
        { create := Except.ok { AccessJwt := "A2", RefreshJwt := "R2" },
          refresh := Except.ok { AccessJwt := "A1", RefreshJwt := "R1" } }).2.2.2 =
      [AuthCall.createSession "h" "w" true] ∧
     (bgTick { mkAuthConfig "p" "h" "w" with RefreshToken := "r" } none 0
        { create := Except.ok { AccessJwt := "A2", RefreshJwt := "R2" },
          refresh := Except.ok { AccessJwt := "A1", RefreshJwt := "R1" } }).1.Token = "A1" ∧
     (refreshLocked { mkAuthConfig "p" "h" "w" with RefreshToken := "r" } none 0
        { create := Except.ok { AccessJwt := "A2", RefreshJwt := "R2" },
          refresh := Except.ok { AccessJwt := "A1", RefreshJwt := "R1" } }).2.1.Token = "A2") :=
  ⟨⟨by decide, by decide⟩, by decide, by decide, by decide, by decide⟩

/-- Witness for the amended C7 at a concrete state with a non-empty access
token. -/
theorem bg_refresher_vs_slow_path_witness :
    ({ mkAuthConfig "p" "h" "w" with Token := "t", RefreshToken := "r" } : AuthConfig).Token ≠ "" ∧
    bgTick { mkAuthConfig "p" "h" "w" with Token := "t", RefreshToken := "r" } none 0
        { create := Except.error "c", refresh := Except.ok { AccessJwt := "A1", RefreshJwt := "R1" } } =
      ((refreshLocked { mkAuthConfig "p" "h" "w" with Token := "t", RefreshToken := "r" } none 0
          { create := Except.error "c", refresh := Except.ok { AccessJwt := "A1", RefreshJwt := "R1" } }).2.1,
        (refreshLocked { mkAuthConfig "p" "h" "w" with Token := "t", RefreshToken := "r" } none 0
          { create := Except.error "c", refresh := Except.ok { AccessJwt := "A1", RefreshJwt := "R1" } }).2.2.1,
        (refreshLocked { mkAuthConfig "p" "h" "w" with Token := "t", RefreshToken := "r" } none 0
          { create := Except.error "c", refresh := Except.ok { AccessJwt := "A1", RefreshJwt := "R1" } }).2.2.2.map
          (AuthCall.setLock false)) :=
  ⟨by decide,
    bg_refresher_vs_slow_path.2 { mkAuthConfig "p" "h" "w" with Token := "t", RefreshToken := "r" }
      none 0
      { create := Except.error "c", refresh := Except.ok { AccessJwt := "A1", RefreshJwt := "R1" } }
      (Or.inl (by decide))⟩

/-! ## Claim C3: totality and case mapping of the expiry extractor

The extractor is a total Lean function, so it cannot raise; the interesting
content is the mapping of inputs to outputs.  The claim's dichotomy — exact
integer expiry versus zero timestamp — misses the fractional numeric case:
a numeric "exp" claim that is not an integer is converted with `int64`
truncation and produces a non-zero instant, not the zero timestamp. -/

/-- C3 (amended): for every input string, when the (well-formed, decodable)
middle part carries a numeric "exp" claim of exact value n / d, the
extractor returns `time.Unix(int64(n / d), 0)`, i.e. the truncation toward
zero — in particular exactly T when the claim value is an epoch-seconds
integer T; on every input without such a numeric claim (wrong part count,
base64url decode failure, non-JSON bytes, absent or non-numeric claim) it
returns the zero timestamp; and it never raises (it is a total function). -/
theorem extract_expiry_characterization (s : String) :
    (∀ (n : Int) (d : Nat), expClaimNum s = some (n, d) →
      extractTokenExpiry s = goTruncToInt64 n d) ∧
    (expClaimNum s = none → extractTokenExpiry s = zeroTime) ∧
    (∀ (T n : Int) (d : Nat), expClaimNum s = some (n, d) → 0 < d → n = T * (d : Int) →
      extractTokenExpiry s = T) := by
  have hmain : (∀ (n : Int) (d : Nat), expClaimNum s = some (n, d) →
      extractTokenExpiry s = goTruncToInt64 n d) ∧
      (expClaimNum s = none → extractTokenExpiry s = zeroTime) := by
    unfold extractTokenExpiry expClaimNum
    cases hsp : splitDot s.toList with
    | nil => simp
    | cons p1 rest1 =>
      cases rest1 with
      | nil => simp
      | cons p2 rest2 =>
        cases rest2 with
        | nil => simp
        | cons p3 rest3 =>
          cases rest3 with
          | cons p4 rest4 => simp
          | nil =>
            cases hb : base64UrlDecode (padB64 p2) with
            | none => simp [hb]
            | some bytes =>
              cases hj : jsonUnmarshalObj bytes with
              | none => simp [hb, hj]
              | some claims =>
                cases hl : lookupClaim claims expKey with
                | none => simp [hb, hj, hl]
                | some v => cases v <;> simp [hb, hj, hl]
  refine ⟨hmain.1, hmain.2, ?_⟩
  intro T n d hsome hd hTd
  rw [hmain.1 n d hsome]
  unfold goTruncToInt64
  subst hTd
  exact Int.mul_tdiv_cancel T (by exact_mod_cast hd.ne')

/-- Counterexample to C3 as stated: a token whose "exp" claim is the
non-integer number 1.5 falls outside the claim's first case, yet the
extractor returns the non-zero instant of second 1 rather than the zero
timestamp. -/
theorem extract_expiry_fractional_nonzero :
    expClaimNum "h.eyJleHAiOjEuNX0.s" = some (15, 10) ∧
    extractTokenExpiry "h.eyJleHAiOjEuNX0.s" = 1 ∧
    (1 : Int) ≠ zeroTime ∧
    (∀ T : Int, (15 : Int) ≠ T * 10) :=
  ⟨by decide, by decide, by decide, by intro T; omega⟩

/-- Witness for the amended C3 at a concrete token carrying the integer
expiry 2000000000. -/
theorem extract_expiry_characterization_witness :
    expClaimNum "h.eyJleHAiOjIwMDAwMDAwMDB9.s" = some (2000000000, 1) ∧
    extractTokenExpiry "h.eyJleHAiOjIwMDAwMDAwMDB9.s" = 2000000000 :=
  ⟨by decide,
    (extract_expiry_characterization "h.eyJleHAiOjIwMDAwMDAwMDB9.s").2.2
      2000000000 2000000000 1 (by decide) (by decide) (by decide)⟩

/-! ## Claim C8: bounded transport calls under contention -/

/-- Whether a call is a password authentication. -/
def AuthCall.isCreate : AuthCall → Bool
  | AuthCall.createSession _ _ _ => true
  | AuthCall.refreshSession _ _ => false

/-- Whether a call is a refresh-grant attempt. -/
def AuthCall.isRefresh : AuthCall → Bool
  | AuthCall.createSession _ _ _ => false
  | AuthCall.refreshSession _ _ => true

/-- A state whose deadline is non-zero and at least thirty minutes beyond
every entrant's clock makes the whole episode a quiet no-op: every entrant
re-checks under the lock, finds the credential fresh and succeeds without
any transport call. -/
theorem runSlowPaths_fresh (entries : List SlowEntry) (a : AuthConfig) (xa : Option AuthInfo)
    (hz : a.RefreshAt ≠ zeroTime)
    (hm : ∀ e ∈ entries, e.now ≤ a.RefreshAt - 1800) :
    runSlowPaths a xa entries =
      { authC := a, xa := xa, calls := [], results := entries.map (fun _ => Except.ok ()) } := by
  induction entries with
  | nil => rfl
  | cons e rest ih =>
    have ht := tokenExpired_eq_false e.now a hz (hm e (List.mem_cons_self e rest))
    have htail := ih (fun u hu => hm u (List.mem_cons_of_mem e hu))
    unfold runSlowPaths
    rw [refreshLocked_not_stale a xa e.now e.tr ht]
    simp only
    rw [htail]
    simp

/-- Unpacking freshness of a successful transport response. -/
theorem freshRespB_ok (entries : List SlowEntry) (now : Int) (s : Session)
    (resp : Except String Session) (hresp : resp = Except.ok s)
    (h : freshRespB entries now resp = true) :
    computeRefreshAt s.AccessJwt now ≠ zeroTime ∧
    ∀ e2 ∈ entries, e2.now ≤ computeRefreshAt s.AccessJwt now - 1800 := by
  subst hresp
  simp only [freshRespB, Bool.and_eq_true, decide_eq_true_eq, List.all_eq_true] at h
  exact ⟨h.1, fun e2 he2 => by simpa using h.2 e2 he2⟩

/-- A stale write-lock entrant whose password call would succeed installs
some successful session (the refresh grant's if it succeeds, otherwise the
password call's) and makes at most one refresh attempt plus at most one
create attempt. -/
theorem refreshLocked_stale_success (a : AuthConfig) (xa : Option AuthInfo) (now : Int)
    (tr : Transport) (s : Session) (ht : tokenExpired now a = true)
    (hcr : tr.create = Except.ok s) :
    ∃ (s2 : Session) (cs : List AuthCall),
      refreshLocked a xa now tr =
        (Except.ok (),
          { a with Token := s2.AccessJwt, RefreshToken := s2.RefreshJwt,
                   RefreshAt := computeRefreshAt s2.AccessJwt now },
          some { AccessJwt := s2.AccessJwt, RefreshJwt := "" }, cs) ∧
      (s2 = s ∨ tr.refresh = Except.ok s2) ∧
      cs.length ≤ 2 ∧ (cs.filter AuthCall.isRefresh).length ≤ 1 ∧
      (cs.filter AuthCall.isCreate).length ≤ 1 := by
  unfold refreshLocked fallbackCreate
  by_cases h2 : a.Token = ""
  · refine ⟨s, [AuthCall.createSession a.Handle a.Password true], ?_, Or.inl rfl, ?_, ?_, ?_⟩ <;>
      simp [ht, h2, hcr, AuthCall.isRefresh, AuthCall.isCreate]
  · by_cases h3 : a.RefreshToken = ""
    · refine ⟨s, [AuthCall.createSession a.Handle a.Password true], ?_, Or.inl rfl, ?_, ?_, ?_⟩ <;>
        simp [ht, h2, h3, hcr, AuthCall.isRefresh, AuthCall.isCreate]
    · cases hrr : tr.refresh with
      | ok s2 =>
        refine ⟨s2, [AuthCall.refreshSession a.RefreshToken true], ?_, Or.inr rfl, ?_, ?_, ?_⟩ <;>
          simp [ht, h2, h3, hrr, AuthCall.isRefresh, AuthCall.isCreate]
      | error er =>
        refine ⟨s, [AuthCall.refreshSession a.RefreshToken true,
            AuthCall.createSession a.Handle a.Password true], ?_, Or.inl rfl, ?_, ?_, ?_⟩ <;>
          simp [ht, h2, h3, hrr, hcr, AuthCall.isRefresh, AuthCall.isCreate]

/-- C8: in a staleness episode — the serial order the shared RWMutex imposes
on the write-lock sections of any number of concurrent `refreshAuth`
callers — against a transport whose password calls succeed and whose
successful sessions are fresh for the whole episode, at most two transport
calls occur in total (at most one refresh attempt and at most one password
attempt), and every caller returns success.  Callers that never reach the
write lock take the read-locked fast path and contribute no calls. -/
theorem contended_refresh_bound (U : List SlowEntry)
    (hc : ∀ e ∈ U, e.tr.create.isOk = true)
    (hf : ∀ e ∈ U, freshRespB U e.now e.tr.create = true ∧
                   freshRespB U e.now e.tr.refresh = true) :
    ∀ entries : List SlowEntry, entries ⊆ U → ∀ (a : AuthConfig) (xa : Option AuthInfo),
      (runSlowPaths a xa entries).calls.length ≤ 2 ∧
      ((runSlowPaths a xa entries).calls.filter AuthCall.isRefresh).length ≤ 1 ∧
      ((runSlowPaths a xa entries).calls.filter AuthCall.isCreate).length ≤ 1 ∧
      ∀ r ∈ (runSlowPaths a xa entries).results, r = Except.ok () := by
  intro entries
  induction entries with
  | nil =>
    intro _ a xa
    simp [runSlowPaths]
  | cons e rest ih =>
    intro hsub a xa
    have heU : e ∈ U := hsub (List.mem_cons_self e rest)
    have hrestU : rest ⊆ U := fun x hx => hsub (List.mem_cons_of_mem e hx)
    by_cases ht : tokenExpired e.now a = false
    · have hstep := refreshLocked_not_stale a xa e.now e.tr ht
      obtain ⟨ih1, ih2, ih3, ih4⟩ := ih hrestU a xa
      unfold runSlowPaths
      rw [hstep]
      simp only
      refine ⟨ih1, ih2, ih3, ?_⟩
      intro r hr
      rcases List.mem_cons.mp hr with hr1 | hr1
      · exact hr1
      · exact ih4 r hr1
    · rw [Bool.not_eq_false] at ht
      obtain ⟨s, hcr⟩ : ∃ s, e.tr.create = Except.ok s := by
        cases hcrr : e.tr.create with
        | ok s => exact ⟨s, rfl⟩
        | error er =>
          have := hc e heU
          rw [hcrr] at this
          simp [Except.isOk, Except.toBool] at this
      obtain ⟨s2, cs, heq, hs2, hlen, hlr, hlc⟩ :=
        refreshLocked_stale_success a xa e.now e.tr s ht hcr
      have hfresh : computeRefreshAt s2.AccessJwt e.now ≠ zeroTime ∧
          ∀ e2 ∈ U, e2.now ≤ computeRefreshAt s2.AccessJwt e.now - 1800 := by
        rcases hs2 with h | h
        · subst h
          exact freshRespB_ok U e.now s2 e.tr.create hcr (hf e heU).1
        · exact freshRespB_ok U e.now s2 e.tr.refresh h (hf e heU).2
      have htail := runSlowPaths_fresh rest
        { a with Token := s2.AccessJwt, RefreshToken := s2.RefreshJwt,
                 RefreshAt := computeRefreshAt s2.AccessJwt e.now }
        (some { AccessJwt := s2.AccessJwt, RefreshJwt := "" })
        hfresh.1 (fun u hu => hfresh.2 u (hrestU hu))
      unfold runSlowPaths
      rw [heq]
      simp only
      rw [htail]
      simp only [List.append_nil]
      refine ⟨hlen, hlr, hlc, ?_⟩
      intro r hr
      rcases List.mem_cons.mp hr with hr1 | hr1
      · exact hr1
      · obtain ⟨u, _, hu⟩ := List.mem_map.mp hr1
        exact hu.symm

/-- Witness for C8: a concrete three-entrant episode from the startup state,
with a failing refresh grant and a succeeding password call. -/
theorem contended_refresh_bound_witness :
    (runSlowPaths (mkAuthConfig "p" "h" "w") none
        [{ now := 0, tr := { create := Except.ok { AccessJwt := "A", RefreshJwt := "R" },
                             refresh := Except.error "x" } },
         { now := 1, tr := { create := Except.ok { AccessJwt := "A", RefreshJwt := "R" },
                             refresh := Except.error "x" } },
         { now := 2, tr := { create := Except.ok { AccessJwt := "A", RefreshJwt := "R" },
                             refresh := Except.error "x" } }]).calls.length ≤ 2 ∧
    ∀ r ∈ (runSlowPaths (mkAuthConfig "p" "h" "w") none
        [{ now := 0, tr := { create := Except.ok { AccessJwt := "A", RefreshJwt := "R" },
                             refresh := Except.error "x" } },
         { now := 1, tr := { create := Except.ok { AccessJwt := "A", RefreshJwt := "R" },
                             refresh := Except.error "x" } },
         { now := 2, tr := { create := Except.ok { AccessJwt := "A", RefreshJwt := "R" },
                             refresh := Except.error "x" } }]).results, r = Except.ok () := by
  have h := contended_refresh_bound
    [{ now := 0, tr := { create := Except.ok { AccessJwt := "A", RefreshJwt := "R" },
                         refresh := Except.error "x" } },
     { now := 1, tr := { create := Except.ok { AccessJwt := "A", RefreshJwt := "R" },
                         refresh := Except.error "x" } },
     { now := 2, tr := { create := Except.ok { AccessJwt := "A", RefreshJwt := "R" },
                         refresh := Except.error "x" } }]
    (by decide) (by decide)
    [{ now := 0, tr := { create := Except.ok { AccessJwt := "A", RefreshJwt := "R" },
                         refresh := Except.error "x" } },
     { now := 1, tr := { create := Except.ok { AccessJwt := "A", RefreshJwt := "R" },
                         refresh := Except.error "x" } },
     { now := 2, tr := { create := Except.ok { AccessJwt := "A", RefreshJwt := "R" },
                         refresh := Except.error "x" } }]
    (fun x hx => hx) (mkAuthConfig "p" "h" "w") none
  exact ⟨h.1, h.2.2.2⟩

end AtHome
